import Mathlib

/-!
Verification development for the Dhanno finance manager's transaction
categorization and learning core.

The TypeScript services are embedded shallowly:

* JavaScript numbers that carry confidences and amounts are modelled by `ℚ`
  (the code only compares, clamps, multiplies and adds them);
* the Prisma row sets are modelled by Lean lists kept in storage order;
  `findMany` without an `orderBy` returns that order, `findFirst` with
  `orderBy: { confidence: 'desc' }` is modelled by a maximum-by-confidence
  scan whose ties resolve to the earlier stored row;
* `async`/`await` sequencing is modelled by ordinary function composition,
  and a fallible external write is modelled by an explicit success flag.
-/

/-- `startsWithChars pat text`: `pat` is an initial segment of `text`. -/
def startsWithChars : List Char → List Char → Bool
  | [], _ => true
  | _ :: _, [] => false
  | a :: as, b :: bs => a == b && startsWithChars as bs

/-- `charsContain text pat`: `pat` occurs contiguously inside `text`. -/
def charsContain : List Char → List Char → Bool
  | text, pat =>
    match text with
    | [] => startsWithChars pat []
    | _ :: rest => startsWithChars pat text || charsContain rest pat

/-- JavaScript `s.includes(sub)`: `sub` occurs contiguously inside `s`. -/
def jsIncludes (s sub : String) : Bool :=
  charsContain s.data sub.data

/-- JavaScript `s.toLowerCase()` (all inputs of interest are ASCII). -/
def toLowerStr (s : String) : String :=
  String.mk (s.data.map Char.toLower)

/-- JavaScript `s.trim()`: strip leading and trailing whitespace. -/
def trimStr (s : String) : String :=
  String.mk
    (((s.data.dropWhile Char.isWhitespace).reverse.dropWhile
      Char.isWhitespace).reverse)

/-- JavaScript `s.replace(/,/g, '')`: remove every comma. -/
def stripCommas (s : String) : String :=
  String.mk (s.data.filter (fun c => !(c == ',')))

/-- JavaScript `s.split(' ')` on the character level (splits at every single
space, keeping empty pieces). -/
def splitSpaceAux (cur : List Char) : List Char → List String
  | [] => [String.mk cur.reverse]
  | c :: cs =>
    if c == ' ' then String.mk cur.reverse :: splitSpaceAux [] cs
    else splitSpaceAux (c :: cur) cs

/-- JavaScript `parts.join(' ')`. -/
def joinSpace : List String → String
  | [] => ""
  | [s] => s
  | s :: rest => s ++ " " ++ joinSpace rest

/-- JavaScript `Math.abs`. -/
def jsAbs (q : ℚ) : ℚ := if q < 0 then -q else q

/-- JavaScript `Math.max` on two numbers. -/
def jsMax (a b : ℚ) : ℚ := if a < b then b else a

/-- JavaScript `Math.min` on two numbers. -/
def jsMin (a b : ℚ) : ℚ := if b < a then b else a

/-- Update the first element of a list satisfying `p` by `f`; models a Prisma
`update` keyed by the id of the row that a preceding `findFirst p` returned
(ids are unique, so that row is the first one satisfying `p`). -/
def updateFirstBy {α : Type} (p : α → Bool) (f : α → α) : List α → List α
  | [] => []
  | a :: as => if p a then f a :: as else a :: updateFirstBy p f as

/-- `findFirst` with `orderBy: { confidence: 'desc' }` over rows carrying a
confidence, extracted by `conf`: the highest-confidence element, ties going to
the earlier stored row. -/
def maxByConf {α : Type} (conf : α → ℚ) : List α → Option α
  | [] => none
  | a :: as =>
    match maxByConf conf as with
    | none => some a
    | some b => if conf b > conf a then some b else some a

theorem updateFirstBy_length {α : Type} (p : α → Bool) (f : α → α) :
    ∀ l : List α, (updateFirstBy p f l).length = l.length := by
  intro l
  induction l with
  | nil => rfl
  | cons a as ih =>
    simp only [updateFirstBy]
    by_cases h : p a <;> simp [h, ih]

theorem updateFirstBy_append_of_none {α : Type} (p : α → Bool) (f : α → α)
    (l₁ l₂ : List α) (h : ∀ a ∈ l₁, p a = false) :
    updateFirstBy p f (l₁ ++ l₂) = l₁ ++ updateFirstBy p f l₂ := by
  induction l₁ with
  | nil => rfl
  | cons a as ih =>
    have ha : p a = false := h a (by simp)
    simp only [List.cons_append, updateFirstBy, ha]
    simp only [Bool.false_eq_true, if_false, List.cons.injEq, true_and]
    exact ih fun b hb => h b (by simp [hb])

theorem find?_updateFirstBy {α : Type} (p : α → Bool) (f : α → α) :
    ∀ (l : List α) (a : α), l.find? p = some a → p (f a) = true →
      (updateFirstBy p f l).find? p = some (f a) := by
  intro l
  induction l with
  | nil => intro a h; simp [List.find?] at h
  | cons x xs ih =>
    intro a h hfa
    by_cases hx : p x
    · rw [List.find?_cons_of_pos _ hx] at h
      injection h with h
      subst h
      simp [updateFirstBy, hx, List.find?_cons_of_pos _ hfa]
    · rw [List.find?_cons_of_neg _ hx] at h
      simp [updateFirstBy, hx, List.find?_cons_of_neg _ hx, ih a h hfa]

theorem maxByConf_eq_none {α : Type} (conf : α → ℚ) :
    ∀ l : List α, maxByConf conf l = none ↔ l = [] := by
  intro l
  cases l with
  | nil => simp [maxByConf]
  | cons x xs =>
    simp only [maxByConf]
    cases maxByConf conf xs with
    | none => simp
    | some b => by_cases hcb : conf x < conf b <;> simp [hcb]

theorem maxByConf_spec {α : Type} (conf : α → ℚ) :
    ∀ l : List α, l ≠ [] →
      ∃ a, maxByConf conf l = some a ∧ a ∈ l ∧ ∀ b ∈ l, conf b ≤ conf a := by
  intro l
  induction l with
  | nil => intro h; exact absurd rfl h
  | cons x xs ih =>
    intro _
    cases h : maxByConf conf xs with
    | none =>
      have hnil : xs = [] := (maxByConf_eq_none conf xs).mp h
      subst hnil
      exact ⟨x, rfl, by simp, by simp⟩
    | some b =>
      have hxs : xs ≠ [] := by
        intro he
        rw [he] at h
        simp [maxByConf] at h
      obtain ⟨a, ha, hmem, hmax⟩ := ih hxs
      rw [ha] at h
      injection h with h
      subst h
      by_cases hc : conf a > conf x
      · refine ⟨a, ?_, by simp [hmem], ?_⟩
        · simp only [maxByConf, ha]
          rw [if_pos hc]
        · intro c hc'
          rcases List.mem_cons.mp hc' with h | h
          · exact h ▸ le_of_lt hc
          · exact hmax c h
      · refine ⟨x, ?_, by simp, ?_⟩
        · simp only [maxByConf, ha]
          rw [if_neg hc]
        · intro c hc'
          rcases List.mem_cons.mp hc' with h | h
          · exact h ▸ le_rfl
          · exact le_trans (hmax c h) (le_of_not_lt hc)

/-! ## Pattern store (learning.service.ts) -/

/-- A stored `CategoryPattern` row, in Prisma storage order inside the store
list.  `merchant` is the nullable merchant column. -/
structure CategoryPattern where
  id : String
  userId : String
  description : String
  merchant : Option String
  categoryId : String
  confidence : ℚ
  isUserCorrection : Bool
  deriving DecidableEq

/-- JavaScript `merchant || null`: an empty string merchant is stored as null. -/
def normMerchant : Option String → Option String
  | none => none
  | some s => if s = "" then none else some s

/-- The Prisma `where` clause shared by `recordUserCorrection` and the exact
match of `findSimilarPattern`: same user, case-insensitively equal
description, and merchant equal to `merchant || null`. -/
def patternKeyPred (uid desc : String) (merch : Option String)
    (p : CategoryPattern) : Bool :=
  p.userId == uid && toLowerStr p.description == toLowerStr desc
    && p.merchant == normMerchant merch

/-- `learningService.recordUserCorrection`: upsert by the natural key.  An
existing row (first matching row; ids are unique) gets the new category,
confidence raised to the max of old and new, and `isUserCorrection := true`;
otherwise a fresh row (with fresh id `newId`) is appended.  Note the
asymmetry in the source: the `findFirst` queries by `merchant || null`, but
the `create` stores the raw `merchant` argument — so a row created for an
empty-string merchant carries `some ""`, which the key query (which
normalizes `""` to null) never matches again. -/
def recordUserCorrection (store : List CategoryPattern) (uid desc : String)
    (merch : Option String) (catId : String) (conf : ℚ) (newId : String) :
    List CategoryPattern :=
  match store.find? (patternKeyPred uid desc merch) with
  | some _ =>
    updateFirstBy (patternKeyPred uid desc merch)
      (fun p => { p with
        categoryId := catId
        confidence := max conf p.confidence
        isUserCorrection := true }) store
  | none =>
    store ++ [{ id := newId, userId := uid, description := desc,
                merchant := merch, categoryId := catId,
                confidence := conf, isUserCorrection := true }]

/-- The lowercased alphanumeric characters kept by `extractKeywords`'
`[^a-z0-9\s]` replacement (the input is lowercased first). -/
def isKeywordChar (c : Char) : Bool :=
  ('a' ≤ c && c ≤ 'z') || c.isDigit

/-- Split a character list into the maximal runs of keyword characters;
models lowercasing, replacing non-`[a-z0-9\s]` by spaces, collapsing
whitespace and splitting on spaces (empty tokens cannot arise). -/
def keywordRuns (cur : List Char) : List Char → List String
  | [] => if cur = [] then [] else [String.mk cur.reverse]
  | c :: cs =>
    if isKeywordChar c then keywordRuns (c :: cur) cs
    else (if cur = [] then [] else [String.mk cur.reverse]) ++ keywordRuns [] cs

/-- The stop-word set of `extractKeywords`. -/
def stopWords : List String :=
  ["upi", "the", "and", "or", "but", "in", "on", "at", "to", "for", "of",
   "with", "by", "from", "up", "about", "into", "through", "during",
   "before", "after", "above", "below", "between", "among", "under", "over"]

/-- `learningService.extractKeywords`: lowercase, keep alphanumeric runs,
drop words of length ≤ 2 and stop words, keep the first 10. -/
def extractKeywords (text : String) : List String :=
  ((keywordRuns [] (text.data.map Char.toLower)).filter
    (fun w => w.length > 2 && !(stopWords.contains w))).take 10

/-- `learningService.calculateSimilarity`: 0 when either keyword list is
empty, otherwise Jaccard similarity of the two keyword sets. -/
def calculateSimilarity (words1 words2 : List String) : ℚ :=
  if words1.length = 0 ∨ words2.length = 0 then 0
  else ((words1.toFinset ∩ words2.toFinset).card : ℚ)
    / ((words1.toFinset ∪ words2.toFinset).card : ℚ)

/-- Match provenance of a pattern-store hit. -/
inductive MatchType where
  | exact
  | description
  | merchant
  | keywords
  deriving DecidableEq

/-- The string the service interpolates for each match type. -/
def matchTypeLabel : MatchType → String
  | .exact => "exact"
  | .description => "description"
  | .merchant => "merchant"
  | .keywords => "keywords"

/-- Result shape of `findSimilarPattern` (category name joined in via the
category table, modelled by a name lookup function). -/
structure PatternMatch where
  categoryId : String
  categoryName : String
  confidence : ℚ
  matchType : MatchType
  deriving DecidableEq

/-- The description-similarity scan of `findSimilarPattern`: the user's
patterns in storage order (the `findMany` has no `orderBy`), returning the
first one whose keyword similarity to `kw` exceeds 0.7, with that
similarity. -/
def firstDescriptionMatch (kw : List String) :
    List CategoryPattern → Option (CategoryPattern × ℚ)
  | [] => none
  | p :: ps =>
    let sim := calculateSimilarity kw (extractKeywords p.description)
    if (7 : ℚ)/10 < sim then some (p, sim) else firstDescriptionMatch kw ps

/-- Prisma `merchant: { contains: m, mode: 'insensitive' }` on the nullable
merchant column: the stored merchant contains the query string
case-insensitively (null never matches). -/
def merchantContains (stored : Option String) (m : String) : Bool :=
  match stored with
  | none => false
  | some s => jsIncludes (toLowerStr s) (toLowerStr m)

/-- Step 2 of `findSimilarPattern`: when the query yields keywords, scan the
user's patterns in storage order and take the first with similarity above
0.7, confidence scaled by the similarity. -/
def descriptionStep (store : List CategoryPattern)
    (catName : String → String) (uid description : String) :
    Option PatternMatch :=
  let descWords := extractKeywords description
  if descWords.length > 0 then
    match firstDescriptionMatch descWords
        (store.filter (fun p => p.userId == uid)) with
    | some (p, sim) =>
      some ⟨p.categoryId, catName p.categoryId, p.confidence * sim,
            .description⟩
    | none => none
  else none

/-- Step 3 of `findSimilarPattern`: with a truthy query merchant, the
highest-confidence pattern of the user whose stored merchant contains the
query merchant case-insensitively, scaled by 0.8. -/
def merchantStep (store : List CategoryPattern)
    (catName : String → String) (uid : String)
    (merchant : Option String) : Option PatternMatch :=
  match normMerchant merchant with
  | some m =>
    match maxByConf (fun p => p.confidence)
        (store.filter
          (fun p => p.userId == uid && merchantContains p.merchant m)) with
    | some p =>
      some ⟨p.categoryId, catName p.categoryId,
            p.confidence * ((8 : ℚ)/10), .merchant⟩
    | none => none
  | none => none

/-- `learningService.findSimilarPattern`: (1) exact key match, best by
confidence (`findFirst` with `orderBy: { confidence: 'desc' }`); (2) first
stored pattern of the user with keyword similarity above 0.7, confidence
scaled by the similarity; (3) merchant containment match, best by
confidence, scaled by 0.8; else null.  `catName` models the joined category
name. -/
def findSimilarPattern (store : List CategoryPattern)
    (catName : String → String) (uid description : String)
    (merchant : Option String) : Option PatternMatch :=
  match maxByConf (fun p => p.confidence)
      (store.filter (patternKeyPred uid description merchant)) with
  | some p => some ⟨p.categoryId, catName p.categoryId, p.confidence, .exact⟩
  | none =>
    match descriptionStep store catName uid description with
    | some r => some r
    | none => merchantStep store catName uid merchant

/-! ## Classifier (ollama.service.ts) -/

/-- Result shape of `categorizeTransaction` (`reasoning` is always set on
every return path of the source, so it is a plain string here). -/
structure CategorySuggestion where
  category : String
  confidence : ℚ
  reasoning : String
  deriving DecidableEq

/-- One static quick-match rule: keyword list, suggested category name and
confidence. -/
structure QuickRule where
  keywords : List String
  category : String
  confidence : ℚ

/-- The static rule table of `quickCategorize`, in source order. -/
def quickPatterns : List QuickRule :=
  [ ⟨["groceries", "grocery", "food", "swiggy", "zomato", "bigbasket",
      "dmart", "grofers", "fresh"], "Groceries & Food", (95 : ℚ)/100⟩,
    ⟨["electricity", "water", "gas", "bill", "bses", "tata power", "adani"],
      "Utilities & Bills", (95 : ℚ)/100⟩,
    ⟨["recharge", "prepaid", "postpaid", "airtel", "jio", "vi", "bsnl",
      "mtnl"], "Mobile & Internet", (95 : ℚ)/100⟩,
    ⟨["ola", "uber", "auto", "taxi", "metro", "petrol", "diesel", "fuel",
      "iocl", "bpcl", "hpcl"], "Transportation", (95 : ℚ)/100⟩,
    ⟨["zerodha", "stock purchase", "equity buy", "share buy", "kite",
      "upstox", "angel broking"], "Stock Purchase", (95 : ℚ)/100⟩,
    ⟨["groww", "sip", "systematic investment", "mutual fund", "mf purchase",
      "elss", "lumpsum"], "Mutual Fund Purchase", (95 : ℚ)/100⟩,
    ⟨["charges", "fee", "annual fee", "maintenance fee", "atm charges",
      "sms charges", "neft charges", "rtgs charges", "processing fee",
      "late payment", "overdraft", "foreign transaction", "demat charges"],
      "Banking & Credit Card Fees", (95 : ℚ)/100⟩,
    ⟨["netflix", "amazon prime", "spotify", "subscription", "gift",
      "donation", "pet", "repair", "maintenance", "legal", "books",
      "magazine"], "Miscellaneous Expenses", (90 : ℚ)/100⟩,
    ⟨["cashback", "reward", "refund", "gift money", "prize",
      "reimbursement", "found money", "competition"],
      "Miscellaneous Income", (90 : ℚ)/100⟩,
    ⟨["stock sale", "equity sell", "share sell", "sell order",
      "profit booking"], "Stock Sale", (95 : ℚ)/100⟩,
    ⟨["mf redemption", "mutual fund redemption", "fund withdrawal",
      "sip withdrawal"], "Mutual Fund Redemption", (95 : ℚ)/100⟩,
    ⟨["ppf", "epf contribution", "nps", "fixed deposit", "fd",
      "gold purchase", "crypto purchase"], "PPF Contribution",
      (90 : ℚ)/100⟩,
    ⟨["dividend", "divd", "tcs dividend", "infosys dividend",
      "reliance dividend"], "Dividend Income", (95 : ℚ)/100⟩,
    ⟨["capital gain", "ltcg", "stcg", "profit from sale"], "Capital Gains",
      (95 : ℚ)/100⟩,
    ⟨["crop sales", "harvest", "farm produce", "agricultural income",
      "farm revenue"], "Crop Sales", (95 : ℚ)/100⟩,
    ⟨["livestock", "cattle sale", "milk", "dairy", "poultry"],
      "Livestock Income", (95 : ℚ)/100⟩,
    ⟨["farm rent", "land lease", "agricultural rent"], "Farm Rental Income",
      (95 : ℚ)/100⟩,
    ⟨["subsidy", "agricultural subsidy", "govt subsidy", "crop insurance"],
      "Agricultural Subsidies", (95 : ℚ)/100⟩,
    ⟨["seeds", "fertilizer", "pesticide", "farm labor", "irrigation"],
      "Seeds & Fertilizers", (90 : ℚ)/100⟩,
    ⟨["tractor", "farm equipment", "harvester", "plough"],
      "Farm Equipment Purchase", (90 : ℚ)/100⟩,
    ⟨["bore well", "water pump", "drip irrigation", "sprinkler"],
      "Irrigation System", (90 : ℚ)/100⟩,
    ⟨["veterinary", "animal feed", "cattle feed", "fodder"],
      "Veterinary Services", (90 : ℚ)/100⟩ ]

/-- One loop iteration of `quickCategorize` for rule `r`: if some keyword
occurs in the lowercased description or merchant, resolve the rule's category
against the available names by case-insensitive substring match in either
direction; a rule that fires but does not resolve yields nothing (the loop
continues). -/
def quickMatchRule (desc merch : String) (cats : List String)
    (r : QuickRule) : Option CategorySuggestion :=
  if r.keywords.any (fun k => jsIncludes desc k || jsIncludes merch k) then
    match cats.find? (fun cat =>
        jsIncludes (toLowerStr cat) (toLowerStr r.category)
          || jsIncludes (toLowerStr r.category) (toLowerStr cat)) with
    | some c =>
      some ⟨c, r.confidence,
        "Quick match based on keyword: "
          ++ ((r.keywords.find?
                (fun k => jsIncludes desc k || jsIncludes merch k)).getD "")⟩
    | none => none
  else none

/-- `OllamaService.quickCategorize`: first rule (in table order) that fires
and resolves wins. -/
def quickCategorize (description : String) (merchant : Option String)
    (cats : List String) : Option CategorySuggestion :=
  let desc := toLowerStr description
  let merch := match merchant with
    | some m => toLowerStr m
    | none => ""
  quickPatterns.findSome? (quickMatchRule desc merch cats)

/-- JavaScript `availableCategories[0] || 'Uncategorized'` (an empty first
name is falsy). -/
def headCategory (cats : List String) : String :=
  match cats with
  | [] => "Uncategorized"
  | c :: _ => if c = "" then "Uncategorized" else c

/-- `OllamaService.findClosestCategory`: exact lowercase match, then
substring match in either direction, else the first available category. -/
def findClosestCategory (suggested : String) (cats : List String) : String :=
  let normalized := trimStr (toLowerStr suggested)
  match cats.find? (fun cat => toLowerStr cat == normalized) with
  | some c => c
  | none =>
    match cats.find? (fun cat =>
        jsIncludes (toLowerStr cat) normalized
          || jsIncludes normalized (toLowerStr cat)) with
    | some c => c
    | none => headCategory cats

/-- Abstraction of the body of a successful LLM HTTP response: either no JSON
object can be extracted and parsed from the text (`JSON.parse` throwing, no
`{...}` match, or a non-string `category` field — all of which reach the same
fallback), or the first JSON object parses with a string `category`, a
confidence field, and an optional string `reasoning`.  The `Option ℚ`
confidence covers the absent-or-numeric self-reports the classifier claims
exercise; the fully general confidence semantics (non-numeric JSON values
such as strings, booleans, arrays and objects, whose `|| 0.5` and
`Math.min`/`Math.max` behaviour differs) is modelled by `JsonConf` and
`parsedConfidence` below, proven to agree with this function on the shared
absent-or-numeric cases. -/
inductive LlmBody where
  | unparseable
  | parsed (category : String) (confidence : Option ℚ)
    (reasoning : Option String)
  deriving DecidableEq

/-- Outcome of the `fetch` to the LLM: a transport failure (thrown `fetch`
or non-ok status, both landing in the same `catch`) or a response body. -/
inductive LlmResponse where
  | failure
  | response (body : LlmBody)
  deriving DecidableEq

/-- JavaScript `parsed.confidence || 0.5`: an absent confidence or a
self-reported confidence of exactly 0 (both falsy) become 0.5. -/
def jsConfidenceOr (conf : Option ℚ) : ℚ :=
  match conf with
  | none => (1 : ℚ)/2
  | some c => if c = 0 then (1 : ℚ)/2 else c

/-- `OllamaService.parseCategorizationResponse`: on a parsed JSON object,
normalize the category and clamp `parsed.confidence || 0.5` into [0,1] via
`Math.max(0, Math.min(1, ·))`; otherwise the 0.1 fallback naming the first
available category. -/
def parseCategorizationResponse (body : LlmBody) (cats : List String) :
    CategorySuggestion :=
  match body with
  | .unparseable =>
    ⟨headCategory cats, (1 : ℚ)/10, "Could not parse LLM response"⟩
  | .parsed category confidence reasoning =>
    ⟨findClosestCategory category cats,
     max 0 (min 1 (jsConfidenceOr confidence)),
     reasoning.getD ""⟩

/-- Step 3 of `categorizeTransaction`: the LLM call.  A transport failure is
caught and yields the 0.1 fallback; a response body is parsed.  This function
is total: no branch raises. -/
def llmStep (llm : LlmResponse) (cats : List String) : CategorySuggestion :=
  match llm with
  | .failure =>
    ⟨headCategory cats, (1 : ℚ)/10, "Failed to get LLM categorization"⟩
  | .response body => parseCategorizationResponse body cats

/-- A JavaScript number as it flows through the confidence clamp: a finite
value (a rational), NaN, or a signed infinity (reachable only through
string coercions such as `Number("1e999")`). -/
inductive JsNum where
  | nan
  | inf
  | neginf
  | val (q : ℚ)
  deriving DecidableEq

/-- The parsed object's `confidence` field as a general JSON value (plus
`undef` for an absent field).  JSON numbers are finite, so `num` carries a
rational.  Strings and composites (arrays/objects) carry their ECMAScript
`ToNumber` coercion — supplied rather than re-implemented, exactly as
`JSON.parse` itself is abstracted: e.g. `"0.75" ↦ 3/4`, `"0" ↦ 0`,
`"high" ↦ NaN`, `[] ↦ 0`, `[2] ↦ 2`, an empty object ↦ NaN.  The code observes a
confidence value only through its truthiness (`|| 0.5`) and this coercion
(`Math.min`). -/
inductive JsonConf where
  | undef
  | nullv
  | boolean (b : Bool)
  | num (q : ℚ)
  | str (s : String) (toNum : JsNum)
  | composite (toNum : JsNum)
  deriving DecidableEq

/-- JavaScript truthiness of a confidence field value: `undefined`, `null`,
`false`, the number 0 and the empty string are falsy; every other value —
including the string `"0"` and every array or object — is truthy. -/
def jsonConfTruthy : JsonConf → Bool
  | .undef => false
  | .nullv => false
  | .boolean b => b
  | .num q => !(q == 0)
  | .str s _ => !(s == "")
  | .composite _ => true

/-- ECMAScript `ToNumber` on a confidence field value (`undefined ↦ NaN`,
`null ↦ 0`, booleans to 0/1, numbers to themselves, strings and composites
to their carried coercion). -/
def jsonConfToNumber : JsonConf → JsNum
  | .undef => .nan
  | .nullv => .val 0
  | .boolean b => .val (if b then 1 else 0)
  | .num q => .val q
  | .str _ toNum => toNum
  | .composite toNum => toNum

/-- `Math.max(0, Math.min(1, v))` on a JavaScript number: NaN propagates
through both, `Math.min(1, Infinity) = 1`, `Math.max(0, -Infinity) = 0`,
and a finite value is clamped into [0, 1]. -/
def clampConfidence : JsNum → JsNum
  | .nan => .nan
  | .inf => .val 1
  | .neginf => .val 0
  | .val q => .val (jsMax 0 (jsMin 1 q))

/-- The parsed-path confidence expression of `parseCategorizationResponse`,
`Math.max(0, Math.min(1, parsed.confidence || 0.5))`, over a general JSON
confidence value: a falsy self-report becomes the 0.5 default, anything
else is numerically coerced and clamped. -/
def parsedConfidence (conf : JsonConf) : JsNum :=
  clampConfidence
    (if jsonConfTruthy conf then jsonConfToNumber conf
     else .val ((1 : ℚ)/2))

/-- Step 1 of `categorizeTransaction`: when a userId is supplied, accept a
pattern-store match only above the 0.8 trust threshold. -/
def learnedStep (store : List CategoryPattern) (catName : String → String)
    (userId : Option String) (description : String)
    (merchant : Option String) : Option CategorySuggestion :=
  match userId with
  | none => none
  | some uid =>
    match findSimilarPattern store catName uid description merchant with
    | some m =>
      if (8 : ℚ)/10 < m.confidence then
        some ⟨m.categoryName, m.confidence,
          "Learned from previous " ++ matchTypeLabel m.matchType ++ " match"⟩
      else none
    | none => none

/-- `OllamaService.categorizeTransaction`: learned pattern above 0.8 first
(only with a userId), then the static quick match, then the LLM fallback.
`amount` only feeds the prompt text, never the result.  `llm` is the outcome
of the external call the code would make on the fallback path. -/
def categorizeTransaction (store : List CategoryPattern)
    (catName : String → String) (description : String)
    (merchant : Option String) (amount : ℚ) (cats : List String)
    (userId : Option String) (llm : LlmResponse) : CategorySuggestion :=
  match learnedStep store catName userId description merchant with
  | some s => s
  | none =>
    match quickCategorize description merchant cats with
    | some q => q
    | none =>
      let _ := amount
      llmStep llm cats

/-! ## Recategorization orchestrator (recategorization service) -/

/-- A persisted transaction row (the fields the categorization core touches). -/
structure Transaction where
  id : String
  userId : String
  description : String
  merchant : Option String
  amount : ℚ
  categoryId : Option String
  llmCategorized : Bool
  llmConfidence : Option ℚ
  deriving DecidableEq

/-- A category row (id, name, owner, default flag). -/
structure Category where
  id : String
  name : String
  userId : Option String
  isDefault : Bool
  deriving DecidableEq

/-- The application step of `recategorizeAllTransactions` for one
transaction: find the suggested category by name; apply only when it exists,
differs from the current category and the confidence exceeds 0.7; on apply
set `llmCategorized := true` and store the confidence.  Returns the
(possibly updated) transaction and whether an update was written. -/
def applySuggestionAll (categories : List Category) (txn : Transaction)
    (s : CategorySuggestion) : Transaction × Bool :=
  match categories.find? (fun c => c.name == s.category) with
  | some newCat =>
    if txn.categoryId ≠ some newCat.id ∧ (7 : ℚ)/10 < s.confidence then
      ({ txn with categoryId := some newCat.id, llmCategorized := true,
                  llmConfidence := some s.confidence }, true)
    else (txn, false)
  | none => (txn, false)

/-- The application step of `recategorizeTransaction`: find the suggested
category by name; apply whenever it exists and the confidence exceeds 0.7
(there is no check that it differs from the current category); on apply set
`llmCategorized := true` and store the confidence. -/
def applySuggestionOne (categories : List Category) (txn : Transaction)
    (s : CategorySuggestion) : Transaction × Bool :=
  match categories.find? (fun c => c.name == s.category) with
  | some newCat =>
    if (7 : ℚ)/10 < s.confidence then
      ({ txn with categoryId := some newCat.id, llmCategorized := true,
                  llmConfidence := some s.confidence }, true)
    else (txn, false)
  | none => (txn, false)

/-- One iteration of the `recategorizeAllTransactions` loop: classify the
transaction (with learning enabled, over the user's own plus default
category names) and apply under the "differs and above 0.7" policy. -/
def recategorizeAllStep (store : List CategoryPattern)
    (catName : String → String) (categories : List Category)
    (llm : LlmResponse) (txn : Transaction) : Transaction × Bool :=
  let suggestion := categorizeTransaction store catName txn.description
    txn.merchant (jsAbs txn.amount) (categories.map (fun c => c.name))
    (some txn.userId) llm
  applySuggestionAll categories txn suggestion

/-- `recategorizeTransaction` for a found transaction: classify it (with
learning enabled) and apply whenever the confidence exceeds 0.7. -/
def recategorizeOne (store : List CategoryPattern)
    (catName : String → String) (categories : List Category)
    (llm : LlmResponse) (txn : Transaction) : Transaction × Bool :=
  let suggestion := categorizeTransaction store catName txn.description
    txn.merchant (jsAbs txn.amount) (categories.map (fun c => c.name))
    (some txn.userId) llm
  applySuggestionOne categories txn suggestion

/-! ## Asset side-effect handler (asset-transaction-handler.ts) -/

/-- A portfolio asset row (timestamp columns are not modelled). -/
structure Asset where
  id : String
  userId : String
  name : String
  category : String
  subCategory : Option String
  currentValue : ℚ
  purchaseValue : ℚ
  quantity : Option ℚ
  description : String
  isActive : Bool
  deriving DecidableEq

/-- Target of one entry of the category-to-asset mapping table. -/
structure AssetInfo where
  category : String
  subCategory : Option String
  isSale : Bool
  deriving DecidableEq

/-- The static `assetCategoryMapping` table of `handleAssetTransaction`. -/
def assetCategoryMapping : List (String × AssetInfo) :=
  [ ("Stock Purchase", ⟨"Stocks", some "Individual Stocks", false⟩),
    ("Mutual Fund Purchase", ⟨"Mutual Funds", some "Equity Funds", false⟩),
    ("PPF Contribution", ⟨"Fixed Deposits", some "PPF", false⟩),
    ("EPF Contribution", ⟨"Fixed Deposits", some "EPF", false⟩),
    ("NPS Contribution", ⟨"Fixed Deposits", some "NPS", false⟩),
    ("Gold Purchase", ⟨"Precious Metals", some "Gold", false⟩),
    ("Real Estate Purchase", ⟨"Real Estate", some "Residential", false⟩),
    ("Farm Equipment Purchase", ⟨"Farm Assets", some "Equipment", false⟩),
    ("Livestock Purchase", ⟨"Farm Assets", some "Livestock", false⟩),
    ("Asset Purchase", ⟨"Other Assets", some "Miscellaneous", false⟩),
    ("Stock Sale", ⟨"Stocks", some "Individual Stocks", true⟩),
    ("Mutual Fund Redemption", ⟨"Mutual Funds", some "Equity Funds", true⟩),
    ("Asset Sale", ⟨"Other Assets", some "Miscellaneous", true⟩) ]

/-- `merchant || description.split(' ').slice(0, 3).join(' ') || 'Unknown
Asset'`: the derived asset name (JavaScript `split(' ')` splits on single
spaces, which `String.splitOn " "` matches). -/
def derivedAssetName (description : String) (merchant : Option String) :
    String :=
  match normMerchant merchant with
  | some m => m
  | none =>
    let fromDesc := joinSpace ((splitSpaceAux [] description.data).take 3)
    if fromDesc = "" then "Unknown Asset" else fromDesc

/-- The `findFirst` key of `handleAssetTransaction`: same user, derived
name, mapped asset category and subcategory. -/
def assetKeyPred (uid assetName : String) (info : AssetInfo) (a : Asset) :
    Bool :=
  a.userId == uid && a.name == assetName && a.category == info.category
    && a.subCategory == info.subCategory

/-- `handleAssetTransaction`: ignore categories outside the mapping table;
on a purchase, add the absolute amount to the first matching existing asset
(incrementing its purchase counter) or create a fresh one with quantity 1;
on a sale, subtract the absolute amount from the first matching existing
asset, floored at 0 and deactivating it exactly at 0 — a sale with no
matching asset changes nothing. -/
def handleAssetTransaction (assets : List Asset) (uid : String)
    (categoryName : Option String) (description : String)
    (merchant : Option String) (amount : ℚ) (newId : String) : List Asset :=
  match categoryName with
  | none => assets
  | some cname =>
    match (assetCategoryMapping.find? (fun e => e.1 == cname)).map
        (fun e => e.2) with
    | none => assets
    | some info =>
      let assetName := derivedAssetName description merchant
      match assets.find? (assetKeyPred uid assetName info) with
      | some a =>
        if info.isSale then
          let newValue := jsMax 0 (a.currentValue - (jsAbs amount))
          updateFirstBy (fun b => b.id == a.id)
            (fun b => { b with currentValue := newValue,
                               isActive := decide (0 < newValue) }) assets
        else
          updateFirstBy (fun b => b.id == a.id)
            (fun b => { b with
              currentValue := a.currentValue + (jsAbs amount),
              quantity := some ((a.quantity.getD 0) + 1) }) assets
      | none =>
        if info.isSale then assets
        else
          assets ++ [{ id := newId, userId := uid, name := assetName,
                       category := info.category,
                       subCategory := info.subCategory,
                       currentValue := (jsAbs amount), purchaseValue := (jsAbs amount),
                       quantity := some 1,
                       description :=
                         "Auto-created from transaction: " ++ description,
                       isActive := true }]

/-! ## Manual correction endpoint (learning.routes.ts, PUT /:id/category) -/

/-- The stores the correction endpoint touches. -/
structure RouteState where
  transactions : List Transaction
  categories : List Category
  patterns : List CategoryPattern
  deriving DecidableEq

/-- `PUT /api/learning/:id/category`: reject a falsy body categoryId (400)
and a transaction not owned by the caller (404); reject a category that
neither belongs to the user nor is a default (400, no effect); otherwise
update the transaction (set the category, clear `llmCategorized` and
`llmConfidence`) and then record a confidence-1.0 user correction.  The two
writes are sequential and `recordUserCorrection` swallows its own errors, so
a failing pattern-store write (modelled by `patternWriteOk = false`) still
answers 200 with the transaction already updated. -/
def updateCategoryRoute (st : RouteState) (uid txnId : String)
    (bodyCategoryId : Option String) (patternWriteOk : Bool)
    (newPatternId : String) : Nat × RouteState :=
  match normMerchant bodyCategoryId with
  | none => (400, st)
  | some cid =>
    match st.transactions.find?
        (fun t => t.id == txnId && t.userId == uid) with
    | none => (404, st)
    | some txn =>
      match st.categories.find?
          (fun c => c.id == cid && (c.userId == some uid || c.isDefault)) with
      | none => (400, st)
      | some _ =>
        let txs := updateFirstBy (fun t => t.id == txnId)
          (fun t => { t with categoryId := some cid,
                             llmCategorized := false,
                             llmConfidence := none }) st.transactions
        let pats :=
          if patternWriteOk then
            recordUserCorrection st.patterns uid txn.description
              txn.merchant cid 1 newPatternId
          else st.patterns
        (200, { st with transactions := txs, patterns := pats })

/-! ## Date parsing (csv-parser.service.ts, parseDate) -/

/-- The argument triple of a JavaScript `new Date(year, monthIndex, day)`
call, after the two-digit-year adjustment (an integer year in 0..99 is read
as 1900 + year).  Day/month overflow normalization is not modelled: no claim
input overflows, and validity (`!isNaN(getTime())`) holds for every integer
argument triple the parser can build. -/
structure JsDate where
  year : Int
  monthIndex : Int
  day : Int
  deriving DecidableEq

/-- `new Date(y, m, d)` with the ECMAScript 0..99 year adjustment. -/
def mkJsDate (y m d : Int) : JsDate :=
  ⟨if 0 ≤ y ∧ y ≤ 99 then 1900 + y else y, m, d⟩

/-- `isNaN(date.getTime())` is false for every date built from integer
arguments in the parser's range. -/
def jsDateIsValid (_ : JsDate) : Bool := true

/-- Decimal value of a digit run (`parseInt`). -/
def digitsToNat (ds : List Char) : Nat :=
  ds.foldl (fun n c => 10 * n + (c.toNat - 48)) 0

/-- The parser's `MONTH_MAP` (keys already lowercased). -/
def monthIndexOf (s : String) : Option Nat :=
  [("jan", 0), ("feb", 1), ("mar", 2), ("apr", 3), ("may", 4), ("jun", 5),
   ("jul", 6), ("aug", 7), ("sep", 8), ("oct", 9), ("nov", 10),
   ("dec", 11)].lookup s

/-- Regex `^\s*(\d{1,2})\s+([A-Za-z]{3})\s+(\d{4})\s*$` ("19 Oct 2015"):
day, month token, year.  Both ends anchored. -/
def matchDMmmY (cs : List Char) : Option (Nat × String × Nat) :=
  let cs1 := cs.dropWhile Char.isWhitespace
  let ds := cs1.takeWhile Char.isDigit
  let r1 := cs1.dropWhile Char.isDigit
  if ds.length = 0 ∨ 2 < ds.length then none
  else if (r1.takeWhile Char.isWhitespace).length = 0 then none
  else
    let r2 := r1.dropWhile Char.isWhitespace
    let ls := r2.takeWhile Char.isAlpha
    let r3 := r2.dropWhile Char.isAlpha
    if ls.length ≠ 3 then none
    else if (r3.takeWhile Char.isWhitespace).length = 0 then none
    else
      let r4 := r3.dropWhile Char.isWhitespace
      let ys := r4.takeWhile Char.isDigit
      let r5 := r4.dropWhile Char.isDigit
      if ys.length ≠ 4 then none
      else if (r5.dropWhile Char.isWhitespace).isEmpty then
        some (digitsToNat ds, String.mk ls, digitsToNat ys)
      else none

/-- Consume one expected character. -/
def expectChar (c : Char) : List Char → Option (List Char)
  | [] => none
  | x :: xs => if x == c then some xs else none

/-- Regex `^\s*(\d{1,2})\/(\d{1,2})\/(\d{2})\s*` — note: no end anchor, so a
four-digit year also matches with its first two digits captured. -/
def matchDDMMYY (cs : List Char) : Option (Nat × Nat × Nat) :=
  let cs1 := cs.dropWhile Char.isWhitespace
  let ds := cs1.takeWhile Char.isDigit
  let r1 := cs1.dropWhile Char.isDigit
  if ds.length = 0 ∨ 2 < ds.length then none
  else
    match expectChar '/' r1 with
    | none => none
    | some r2 =>
      let ms := r2.takeWhile Char.isDigit
      let r3 := r2.dropWhile Char.isDigit
      if ms.length = 0 ∨ 2 < ms.length then none
      else
        match expectChar '/' r3 with
        | none => none
        | some r4 =>
          let ys := r4.takeWhile Char.isDigit
          if ys.length < 2 then none
          else some (digitsToNat ds, digitsToNat ms,
                     digitsToNat (ys.take 2))

/-- One fully anchored `digits sep digits sep digits` pattern with the given
separator and digit-count bounds (as `ok₁`/`ok₂`/`ok₃` on run lengths). -/
def matchSep (sep : Char) (ok₁ ok₂ ok₃ : Nat → Bool) (cs : List Char) :
    Option (Nat × Nat × Nat) :=
  let ds1 := cs.takeWhile Char.isDigit
  let r1 := cs.dropWhile Char.isDigit
  if !(ok₁ ds1.length) then none
  else
    match expectChar sep r1 with
    | none => none
    | some r2 =>
      let ds2 := r2.takeWhile Char.isDigit
      let r3 := r2.dropWhile Char.isDigit
      if !(ok₂ ds2.length) then none
      else
        match expectChar sep r3 with
        | none => none
        | some r4 =>
          let ds3 := r4.takeWhile Char.isDigit
          let r5 := r4.dropWhile Char.isDigit
          if !(ok₃ ds3.length) then none
          else if r5.isEmpty then
            some (digitsToNat ds1, digitsToNat ds2, digitsToNat ds3)
          else none

/-- Digit-run length bound `\d{1,2}`. -/
def oneOrTwo (n : Nat) : Bool := 1 ≤ n && n ≤ 2

/-- Digit-run length bound `\d{4}`. -/
def exactlyFour (n : Nat) : Bool := n == 4

/-- The generic-format interpretation of a captured triple: the guarded
DD/MM/YYYY reading when day ≤ 31, month ≤ 12 and year > 31, otherwise the
first valid `Date` among the DD/MM/YYYY, MM/DD/YYYY, YYYY/MM/DD attempts
(each is valid, so this is the DD/MM/YYYY attempt). -/
def genericInterpret (t : Nat × Nat × Nat) : Option JsDate :=
  let p1 := t.1
  let p2 := t.2.1
  let p3 := t.2.2
  if p1 ≤ 31 ∧ p2 ≤ 12 ∧ 31 < p3 then
    some (mkJsDate p3 ((p2 : Int) - 1) p1)
  else
    [mkJsDate p3 ((p2 : Int) - 1) p1,
     mkJsDate p3 ((p1 : Int) - 1) p2,
     mkJsDate p1 ((p2 : Int) - 1) p3].find? jsDateIsValid

/-- `CSVParserService.parseDate`: clean (trim, strip commas), then try in
order "D MMM YYYY" (falling through when the month token is unknown),
"DD/MM/YY" with century inference (< 50 → 2000s, else 1900s), then the
generic anchored numeric patterns in source order; null when nothing
matches. -/
def parseDate (dateStr : String) : Option JsDate :=
  let cleaned := stripCommas (trimStr dateStr)
  let cs := cleaned.data
  let step3 : Option JsDate :=
    [matchSep '/' oneOrTwo oneOrTwo exactlyFour,
     matchSep '/' oneOrTwo oneOrTwo exactlyFour,
     matchSep '-' exactlyFour oneOrTwo oneOrTwo,
     matchSep '-' oneOrTwo oneOrTwo exactlyFour].findSome?
      (fun f => match f cs with
        | some t => genericInterpret t
        | none => none)
  let step2 : Option JsDate :=
    match matchDDMMYY cs with
    | some (d, m, yy) =>
      some (mkJsDate
        (if yy < 50 then 2000 + (yy : Int) else 1900 + (yy : Int))
        ((m : Int) - 1) d)
    | none => step3
  match matchDMmmY cs with
  | some (d, mon, y) =>
    match monthIndexOf (toLowerStr mon) with
    | some mi => some (mkJsDate y mi d)
    | none => step2
  | none => step2

/-! ## Claim theorems -/

set_option maxRecDepth 4000

/-- C1: `categorizeTransaction` resolution order.  With a userId, a
pattern-store match of confidence above 0.8 is returned with exactly its
category and confidence; otherwise (learned step empty) a quick-match hit is
returned as is; otherwise the LLM fallback result is returned.  Without a
userId the learned step is skipped entirely and the call reduces to the
quick-match/LLM pipeline (hence still returns a suggestion). -/
theorem categorize_resolution (store : List CategoryPattern)
    (catName : String → String) (desc : String) (merch : Option String)
    (amt : ℚ) (cats : List String) (llm : LlmResponse) :
    (∀ (uid : String) (m : PatternMatch),
        findSimilarPattern store catName uid desc merch = some m →
        (8 : ℚ)/10 < m.confidence →
        (categorizeTransaction store catName desc merch amt cats
          (some uid) llm).category = m.categoryName
        ∧ (categorizeTransaction store catName desc merch amt cats
          (some uid) llm).confidence = m.confidence)
    ∧ (∀ (userId : Option String) (q : CategorySuggestion),
        learnedStep store catName userId desc merch = none →
        quickCategorize desc merch cats = some q →
        categorizeTransaction store catName desc merch amt cats userId llm
          = q)
    ∧ (∀ userId : Option String,
        learnedStep store catName userId desc merch = none →
        quickCategorize desc merch cats = none →
        categorizeTransaction store catName desc merch amt cats userId llm
          = llmStep llm cats)
    ∧ (categorizeTransaction store catName desc merch amt cats none llm
        = match quickCategorize desc merch cats with
          | some q => q
          | none => llmStep llm cats) := by
  refine ⟨?_, ?_, ?_, ?_⟩
  · intro uid m h hc
    have hl : learnedStep store catName (some uid) desc merch
        = some ⟨m.categoryName, m.confidence,
            "Learned from previous " ++ matchTypeLabel m.matchType
              ++ " match"⟩ := by
      simp only [learnedStep, h]
      rw [if_pos hc]
    constructor <;> simp [categorizeTransaction, hl]
  · intro userId q hl hq
    simp [categorizeTransaction, hl, hq]
  · intro userId hl hq
    simp [categorizeTransaction, hl, hq]
  · rfl

unseal Rat.mul Rat.inv Rat.add Rat.sub Rat.ofScientific in
/-- Witness for C1: a stored exact-match pattern of confidence 0.9 wins. -/
theorem categorize_resolution_witness :
    (categorizeTransaction
        [⟨"p1", "u", "acme pay", none, "c1", (9 : ℚ)/10, true⟩]
        (fun _ => "Food") "acme pay" none 5 ["Food"] (some "u")
        .failure).category = "Food"
    ∧ (categorizeTransaction
        [⟨"p1", "u", "acme pay", none, "c1", (9 : ℚ)/10, true⟩]
        (fun _ => "Food") "acme pay" none 5 ["Food"] (some "u")
        .failure).confidence = (9 : ℚ)/10 :=
  (categorize_resolution
      [⟨"p1", "u", "acme pay", none, "c1", (9 : ℚ)/10, true⟩]
      (fun _ => "Food") "acme pay" none 5 ["Food"] .failure).1 "u"
    ⟨"c1", "Food", (9 : ℚ)/10, .exact⟩
    (by decide) (by norm_num)

/-- C4: the classifier's LLM fallback path.  On the fallback path (no
learned match accepted, no quick match), a transport failure and an
unparseable response each yield a total, non-raising suggestion with
confidence 0.1, the first available category, and a reasoning string naming
the failure. -/
theorem llm_fallback_degrades (store : List CategoryPattern)
    (catName : String → String) (desc : String) (merch : Option String)
    (amt : ℚ) (c : String) (cs : List String) (userId : Option String)
    (hl : learnedStep store catName userId desc merch = none)
    (hq : quickCategorize desc merch (c :: cs) = none) (hc : c ≠ "") :
    categorizeTransaction store catName desc merch amt (c :: cs) userId
        .failure
      = ⟨c, (1 : ℚ)/10, "Failed to get LLM categorization"⟩
    ∧ categorizeTransaction store catName desc merch amt (c :: cs) userId
        (.response .unparseable)
      = ⟨c, (1 : ℚ)/10, "Could not parse LLM response"⟩ := by
  have hhead : headCategory (c :: cs) = c := by
    simp [headCategory, hc]
  constructor <;>
    simp [categorizeTransaction, hl, hq, llmStep,
      parseCategorizationResponse, hhead]

unseal Rat.mul Rat.inv Rat.add Rat.sub Rat.ofScientific in
/-- Witness for C4: empty store, keyword-free description, category list
["Zzz"]. -/
theorem llm_fallback_degrades_witness :
    categorizeTransaction [] (fun _ => "") "qqq" none 5 ["Zzz"] none
        .failure
      = ⟨"Zzz", (1 : ℚ)/10, "Failed to get LLM categorization"⟩
    ∧ categorizeTransaction [] (fun _ => "") "qqq" none 5 ["Zzz"] none
        (.response .unparseable)
      = ⟨"Zzz", (1 : ℚ)/10, "Could not parse LLM response"⟩ :=
  llm_fallback_degrades [] (fun _ => "") "qqq" none 5 "Zzz" [] none
    rfl (by decide) (by decide)

/-- The pattern-key predicate holds for the row `recordUserCorrection`
creates for that key, provided the merchant argument is its own
normalization (null or a non-empty string). -/
theorem patternKeyPred_rawRow (uid desc : String) (merch : Option String)
    (nid cat : String) (c : ℚ) (b : Bool)
    (hm : normMerchant merch = merch) :
    patternKeyPred uid desc merch
      ⟨nid, uid, desc, merch, cat, c, b⟩ = true := by
  simp [patternKeyPred, hm]

/-- The pattern-key predicate is untouched by the update
`recordUserCorrection` performs. -/
theorem patternKeyPred_update (uid desc : String) (merch : Option String)
    (p : CategoryPattern) (cat : String) (c : ℚ) :
    patternKeyPred uid desc merch
        { p with categoryId := cat, confidence := c,
                 isUserCorrection := true }
      = patternKeyPred uid desc merch p := by
  simp [patternKeyPred]

unseal Rat.mul Rat.inv Rat.add Rat.sub Rat.ofScientific in
/-- C2 counterexample: with an empty-string merchant, the upsert key
normalizes the merchant to null but the created row stores the raw empty
string, so the second correction does not find the first row.  Two
corrections for the same arguments leave *two* stored rows — neither
carrying `max c1 c2` — and the key query matches neither of them; not
"exactly one stored pattern for that key whose confidence equals
max(c1, c2)". -/
theorem recordCorrection_empty_merchant_counterexample :
    recordUserCorrection
        (recordUserCorrection [] "u" "d" (some "") "c1" ((1 : ℚ)/2) "i1")
        "u" "d" (some "") "c2" ((1 : ℚ)/3) "i2"
      = [⟨"i1", "u", "d", some "", "c1", (1 : ℚ)/2, true⟩,
         ⟨"i2", "u", "d", some "", "c2", (1 : ℚ)/3, true⟩]
    ∧ (recordUserCorrection
        (recordUserCorrection [] "u" "d" (some "") "c1" ((1 : ℚ)/2) "i1")
        "u" "d" (some "") "c2" ((1 : ℚ)/3) "i2").filter
          (patternKeyPred "u" "d" (some "")) = [] := by
  decide

/-- C2 amended: `recordUserCorrection` upsert behaviour.  (1) For a
merchant that is its own normalization (null or non-empty), starting from a
store with no row for the (user, description, merchant) key, two
corrections with confidences c1 then c2 leave exactly one row for the key,
carrying the last category, confidence `max c1 c2`, and
`isUserCorrection = true`.  (2) For an existing key the row count is
unchanged and the key's row gets the new category, confidence
`max c oldConfidence` (so never lower than before) and the permanent
user-correction flag.  (3) A new key appends a fresh row storing the *raw*
merchant argument.  (4) The divergence behind the counterexample: a row
whose stored merchant is the empty string satisfies no key query at all
(every query normalizes its merchant to null or a non-empty string), so
empty-merchant corrections re-create rows instead of updating them. -/
theorem recordCorrection_upsert :
    (∀ (store : List CategoryPattern) (uid desc : String)
        (merch : Option String) (cat1 cat2 : String) (c1 c2 : ℚ)
        (id1 id2 : String),
        normMerchant merch = merch →
        (∀ p ∈ store, patternKeyPred uid desc merch p = false) →
        (recordUserCorrection
            (recordUserCorrection store uid desc merch cat1 c1 id1)
            uid desc merch cat2 c2 id2).filter
              (patternKeyPred uid desc merch)
          = [⟨id1, uid, desc, merch, cat2, max c1 c2, true⟩])
    ∧ (∀ (store : List CategoryPattern) (uid desc : String)
        (merch : Option String) (cat : String) (c : ℚ) (nid : String)
        (p : CategoryPattern),
        store.find? (patternKeyPred uid desc merch) = some p →
        (recordUserCorrection store uid desc merch cat c nid).length
            = store.length
        ∧ (recordUserCorrection store uid desc merch cat c nid).find?
              (patternKeyPred uid desc merch)
            = some { p with categoryId := cat,
                            confidence := max c p.confidence,
                            isUserCorrection := true }
        ∧ p.confidence ≤ max c p.confidence)
    ∧ (∀ (store : List CategoryPattern) (uid desc : String)
        (merch : Option String) (cat : String) (c : ℚ) (nid : String),
        store.find? (patternKeyPred uid desc merch) = none →
        recordUserCorrection store uid desc merch cat c nid
          = store ++ [⟨nid, uid, desc, merch, cat, c, true⟩])
    ∧ (∀ p : CategoryPattern, p.merchant = some "" →
        ∀ (uid desc : String) (m : Option String),
          patternKeyPred uid desc m p = false) := by
  refine ⟨?_, ?_, ?_, ?_⟩
  · intro store uid desc merch cat1 cat2 c1 c2 id1 id2 hm h
    have hnone : store.find? (patternKeyPred uid desc merch) = none :=
      List.find?_eq_none.mpr (fun x hx => by simp [h x hx])
    have hstep1 : recordUserCorrection store uid desc merch cat1 c1 id1
        = store ++ [⟨id1, uid, desc, merch, cat1, c1, true⟩] := by
      simp only [recordUserCorrection, hnone]
    have hr1 := patternKeyPred_rawRow uid desc merch id1 cat1 c1 true hm
    have hfind : (store
        ++ [(⟨id1, uid, desc, merch, cat1, c1,
              true⟩ : CategoryPattern)]).find? (patternKeyPred uid desc merch)
        = some ⟨id1, uid, desc, merch, cat1, c1, true⟩ := by
      rw [List.find?_append, hnone]
      simp [List.find?, hr1]
    rw [hstep1]
    simp only [recordUserCorrection, hfind]
    rw [updateFirstBy_append_of_none _ _ store _ h]
    have hupd : updateFirstBy (patternKeyPred uid desc merch)
        (fun p => { p with categoryId := cat2,
                           confidence := max c2 p.confidence,
                           isUserCorrection := true })
        [⟨id1, uid, desc, merch, cat1, c1, true⟩]
        = [⟨id1, uid, desc, merch, cat2, max c2 c1, true⟩] := by
      simp [updateFirstBy, hr1]
    rw [hupd, List.filter_append]
    have hfil : store.filter (patternKeyPred uid desc merch) = [] :=
      List.filter_eq_nil_iff.mpr (fun x hx => by simp [h x hx])
    have hr2 := patternKeyPred_rawRow uid desc merch id1 cat2
      (max c1 c2) true hm
    rw [hfil]
    simp [hr2, max_comm c2 c1]
  · intro store uid desc merch cat c nid p h
    have hp : patternKeyPred uid desc merch p = true := List.find?_some h
    have hkey : patternKeyPred uid desc merch
        { p with categoryId := cat, confidence := max c p.confidence,
                 isUserCorrection := true } = true := by
      rw [patternKeyPred_update]
      exact hp
    refine ⟨?_, ?_, le_max_right _ _⟩
    · simp only [recordUserCorrection, h]
      exact updateFirstBy_length _ _ _
    · simp only [recordUserCorrection, h]
      exact find?_updateFirstBy _ _ store p h hkey
  · intro store uid desc merch cat c nid h
    simp only [recordUserCorrection, h]
  · intro p hp uid desc m
    simp only [patternKeyPred, hp]
    cases m with
    | none => simp [normMerchant]
    | some s =>
      by_cases hs : s = ""
      · simp [normMerchant, hs]
      · have hne : (("" : String) == s) = false :=
          beq_eq_false_iff_ne.mpr (fun he => hs he.symm)
        simp [normMerchant, hs, hne]

/-- Witness for the amended C2: two corrections on an empty store with a
null merchant. -/
theorem recordCorrection_upsert_witness :
    (recordUserCorrection
        (recordUserCorrection [] "u" "d" none "c1" ((1 : ℚ)/2) "i1")
        "u" "d" none "c2" ((1 : ℚ)/3) "i2").filter
          (patternKeyPred "u" "d" none)
      = [⟨"i1", "u", "d", none, "c2", max ((1 : ℚ)/2) ((1 : ℚ)/3), true⟩] :=
  recordCorrection_upsert.1 [] "u" "d" none "c1" "c2" ((1 : ℚ)/2)
    ((1 : ℚ)/3) "i1" "i2" rfl (by simp)

/-- A hit of the description scan is the first pattern, in the scanned
(storage) order, whose similarity exceeds 0.7; the reported similarity is
the Jaccard similarity against that pattern's keywords. -/
theorem firstDescriptionMatch_spec (kw : List String) :
    ∀ (l : List CategoryPattern) (p : CategoryPattern) (sim : ℚ),
      firstDescriptionMatch kw l = some (p, sim) →
      sim = calculateSimilarity kw (extractKeywords p.description)
      ∧ (7 : ℚ)/10 < sim
      ∧ ∃ l1 l2, l = l1 ++ p :: l2
          ∧ ∀ q ∈ l1,
              ¬((7 : ℚ)/10
                < calculateSimilarity kw (extractKeywords q.description)) := by
  intro l
  induction l with
  | nil =>
    intro p sim h
    simp [firstDescriptionMatch] at h
  | cons x xs ih =>
    intro p sim h
    simp only [firstDescriptionMatch] at h
    by_cases hx : (7 : ℚ)/10
        < calculateSimilarity kw (extractKeywords x.description)
    · rw [if_pos hx] at h
      have hpair := Option.some.inj h
      have hp : x = p := congrArg Prod.fst hpair
      have hs : calculateSimilarity kw (extractKeywords x.description)
          = sim := congrArg Prod.snd hpair
      subst hp
      refine ⟨hs.symm, hs ▸ hx, [], xs, rfl, by simp⟩
    · rw [if_neg hx] at h
      obtain ⟨hsim, hgt, l1, l2, hl, hall⟩ := ih p sim h
      refine ⟨hsim, hgt, x :: l1, l2, by rw [hl, List.cons_append], ?_⟩
      intro q hq
      rcases List.mem_cons.mp hq with hq | hq
      · exact hq ▸ hx
      · exact hall q hq

unseal Rat.mul Rat.inv Rat.add Rat.sub Rat.ofScientific in
/-- C3 counterexample.  Left: with two stored patterns for the same user,
stored low-confidence first, both with similarity 3/4 > 0.7 to the query,
`findSimilarPattern` returns the first *stored* pattern (category "c1",
confidence (1/2)·(3/4) = 3/8) even though the second has the strictly higher
confidence 9/10 — under the claimed "patterns ordered by confidence
descending" iteration the hit would be "c2".  Right: a stored merchant
"Amazon" is a case-insensitive substring of the query merchant
"Amazon Pantry" (the claim's "vice versa" direction), yet the code finds no
match, because the Prisma filter only checks that the stored merchant
contains the query merchant. -/
theorem findBestMatch_counterexample :
    (findSimilarPattern
        [⟨"p1", "u", "alpha beta gamma", none, "c1", (1 : ℚ)/2, true⟩,
         ⟨"p2", "u", "alpha beta gamma", none, "c2", (9 : ℚ)/10, true⟩]
        (fun _ => "cat") "u" "alpha beta gamma extra" none
      = some ⟨"c1", "cat", (3 : ℚ)/8, .description⟩
    ∧ (7 : ℚ)/10 < calculateSimilarity
        (extractKeywords "alpha beta gamma extra")
        (extractKeywords "alpha beta gamma")
    ∧ (1 : ℚ)/2 < (9 : ℚ)/10)
    ∧ (findSimilarPattern
        [⟨"p3", "u", "stored desc", some "Amazon", "c3", (95 : ℚ)/100,
          true⟩]
        (fun _ => "cat") "u" "unrelated qqq" (some "Amazon Pantry")
      = none
    ∧ jsIncludes (toLowerStr "Amazon Pantry") (toLowerStr "Amazon")
      = true) := by
  decide

/-- C3 amended: `findSimilarPattern` tries (a) exact key match returning the
highest stored confidence with type "exact"; (b) the first pattern *in
storage order* (the `findMany` carries no ordering clause) whose Jaccard
similarity exceeds 0.7, with confidence `pattern.confidence × similarity`;
(c) merchant match in one direction only — the stored merchant contains the
query merchant case-insensitively — highest confidence wins, scaled by 0.8;
(d) null when no step applies. -/
theorem findBestMatch_characterization (store : List CategoryPattern)
    (catName : String → String) (uid desc : String)
    (merch : Option String) :
    (store.filter (patternKeyPred uid desc merch) ≠ [] →
      ∃ p, p ∈ store.filter (patternKeyPred uid desc merch)
        ∧ (∀ q ∈ store.filter (patternKeyPred uid desc merch),
            q.confidence ≤ p.confidence)
        ∧ findSimilarPattern store catName uid desc merch
          = some ⟨p.categoryId, catName p.categoryId, p.confidence,
                  .exact⟩)
    ∧ (∀ (p : CategoryPattern) (sim : ℚ),
        store.filter (patternKeyPred uid desc merch) = [] →
        extractKeywords desc ≠ [] →
        firstDescriptionMatch (extractKeywords desc)
            (store.filter (fun p => p.userId == uid)) = some (p, sim) →
        findSimilarPattern store catName uid desc merch
          = some ⟨p.categoryId, catName p.categoryId, p.confidence * sim,
                  .description⟩
        ∧ (7 : ℚ)/10 < sim
        ∧ sim = calculateSimilarity (extractKeywords desc)
                  (extractKeywords p.description)
        ∧ ∃ l1 l2,
            store.filter (fun p => p.userId == uid) = l1 ++ p :: l2
            ∧ ∀ q ∈ l1,
                ¬((7 : ℚ)/10 < calculateSimilarity (extractKeywords desc)
                    (extractKeywords q.description)))
    ∧ (∀ m : String,
        store.filter (patternKeyPred uid desc merch) = [] →
        descriptionStep store catName uid desc = none →
        normMerchant merch = some m →
        store.filter
            (fun p => p.userId == uid && merchantContains p.merchant m)
          ≠ [] →
        ∃ p, p ∈ store.filter
              (fun p => p.userId == uid && merchantContains p.merchant m)
          ∧ (∀ q ∈ store.filter
                (fun p => p.userId == uid && merchantContains p.merchant m),
              q.confidence ≤ p.confidence)
          ∧ findSimilarPattern store catName uid desc merch
            = some ⟨p.categoryId, catName p.categoryId,
                    p.confidence * ((8 : ℚ)/10), .merchant⟩)
    ∧ (store.filter (patternKeyPred uid desc merch) = [] →
        descriptionStep store catName uid desc = none →
        merchantStep store catName uid merch = none →
        findSimilarPattern store catName uid desc merch = none) := by
  refine ⟨?_, ?_, ?_, ?_⟩
  · intro hne
    obtain ⟨p, hmax, hmem, hle⟩ :=
      maxByConf_spec (fun p => p.confidence) _ hne
    exact ⟨p, hmem, hle, by simp only [findSimilarPattern, hmax]⟩
  · intro p sim hfil hkw hfirst
    have hlen : (extractKeywords desc).length > 0 :=
      List.length_pos.mpr hkw
    have hdesc : descriptionStep store catName uid desc
        = some ⟨p.categoryId, catName p.categoryId, p.confidence * sim,
                .description⟩ := by
      simp only [descriptionStep]
      rw [if_pos hlen, hfirst]
    obtain ⟨hsim, hgt, l1, l2, hl, hall⟩ :=
      firstDescriptionMatch_spec (extractKeywords desc) _ p sim hfirst
    refine ⟨?_, hgt, hsim, l1, l2, hl, hall⟩
    simp only [findSimilarPattern, hfil, maxByConf, hdesc]
  · intro m hfil hdesc hm hne
    obtain ⟨p, hmax, hmem, hle⟩ :=
      maxByConf_spec (fun p => p.confidence) _ hne
    refine ⟨p, hmem, hle, ?_⟩
    have hmer : merchantStep store catName uid merch
        = some ⟨p.categoryId, catName p.categoryId,
                p.confidence * ((8 : ℚ)/10), .merchant⟩ := by
      simp only [merchantStep, hm, hmax]
    simp only [findSimilarPattern, hfil, maxByConf, hdesc, hmer]
  · intro hfil hdesc hmer
    simp only [findSimilarPattern, hfil, maxByConf, hdesc, hmer]

unseal Rat.mul Rat.inv Rat.add Rat.sub Rat.ofScientific in
/-- Witness for the amended C3: a description-similarity hit (Jaccard 4/5)
on a singleton store. -/
theorem findBestMatch_characterization_witness :
    findSimilarPattern
        [⟨"p1", "u", "alpha beta gamma delta", none, "c1", (1 : ℚ)/2,
          true⟩]
        (fun _ => "cat") "u" "alpha beta gamma delta xtra" none
      = some ⟨"c1", "cat", (1 : ℚ)/2 * ((4 : ℚ)/5), .description⟩ :=
  ((findBestMatch_characterization
      [⟨"p1", "u", "alpha beta gamma delta", none, "c1", (1 : ℚ)/2, true⟩]
      (fun _ => "cat") "u" "alpha beta gamma delta xtra" none).2.1
    ⟨"p1", "u", "alpha beta gamma delta", none, "c1", (1 : ℚ)/2, true⟩
    ((4 : ℚ)/5) (by decide)
    (by decide) (by decide)).1

/-- C9: the similarity used for description matching is Jaccard over the
keyword sets — identical non-empty keyword sets give exactly 1, disjoint
sets give exactly 0 — and every description-similarity result of
`findSimilarPattern` stems from a stored pattern whose similarity strictly
exceeds 0.7, with confidence equal to the pattern's confidence times that
similarity. -/
theorem jaccard_similarity_props :
    (∀ w1 w2 : List String, w1 ≠ [] → w2 ≠ [] →
        w1.toFinset = w2.toFinset → calculateSimilarity w1 w2 = 1)
    ∧ (∀ w1 w2 : List String, Disjoint w1.toFinset w2.toFinset →
        calculateSimilarity w1 w2 = 0)
    ∧ (∀ (store : List CategoryPattern) (catName : String → String)
        (uid desc : String) (merch : Option String) (r : PatternMatch),
        findSimilarPattern store catName uid desc merch = some r →
        r.matchType = .description →
        ∃ (p : CategoryPattern) (sim : ℚ), p ∈ store
          ∧ (7 : ℚ)/10 < sim
          ∧ sim = calculateSimilarity (extractKeywords desc)
                    (extractKeywords p.description)
          ∧ r.confidence = p.confidence * sim) := by
  refine ⟨?_, ?_, ?_⟩
  · intro w1 w2 h1 h2 heq
    have hc : ¬(w1.length = 0 ∨ w2.length = 0) := by
      simp [List.length_eq_zero, h1, h2]
    rw [calculateSimilarity, if_neg hc, heq, Finset.inter_self,
      Finset.union_self]
    have hne : w2.toFinset ≠ ∅ := by
      intro he
      exact h2 (List.toFinset_eq_empty_iff w2 |>.mp he)
    have hcard : (w2.toFinset.card : ℚ) ≠ 0 := by
      exact_mod_cast fun h0 => hne (Finset.card_eq_zero.mp h0)
    exact div_self hcard
  · intro w1 w2 hd
    by_cases h : w1.length = 0 ∨ w2.length = 0
    · rw [calculateSimilarity, if_pos h]
    · rw [calculateSimilarity, if_neg h,
        Finset.disjoint_iff_inter_eq_empty.mp hd]
      simp
  · intro store catName uid desc merch r h ht
    cases hmaxE : maxByConf (fun p => p.confidence)
        (store.filter (patternKeyPred uid desc merch)) with
    | some p₀ =>
      simp only [findSimilarPattern, hmaxE] at h
      have := Option.some.inj h
      subst this
      simp at ht
    | none =>
      simp only [findSimilarPattern, hmaxE] at h
      cases hd : descriptionStep store catName uid desc with
      | some r' =>
        rw [hd] at h
        have hrr : r' = r := Option.some.inj h
        subst hrr
        simp only [descriptionStep] at hd
        by_cases hkw : (extractKeywords desc).length > 0
        · rw [if_pos hkw] at hd
          cases hf : firstDescriptionMatch (extractKeywords desc)
              (store.filter (fun p => p.userId == uid)) with
          | none => rw [hf] at hd; exact absurd hd (by simp)
          | some ps =>
            obtain ⟨p, sim⟩ := ps
            rw [hf] at hd
            have hr' := Option.some.inj hd
            obtain ⟨hsim, hgt, l1, l2, hl, -⟩ :=
              firstDescriptionMatch_spec (extractKeywords desc) _ p sim hf
            refine ⟨p, sim, ?_, hgt, hsim, ?_⟩
            · have hpmem : p ∈ store.filter (fun p => p.userId == uid) := by
                rw [hl]
                simp
              exact (List.mem_filter.mp hpmem).1
            · rw [← hr']
        · rw [if_neg hkw] at hd
          exact absurd hd (by simp)
      | none =>
        rw [hd] at h
        cases hnm : normMerchant merch with
        | none => simp [merchantStep, hnm] at h
        | some m =>
          cases hmm : maxByConf (fun p => p.confidence)
              (store.filter
                (fun p => p.userId == uid
                  && merchantContains p.merchant m)) with
          | none => simp [merchantStep, hnm, hmm] at h
          | some p =>
            simp only [merchantStep, hnm, hmm] at h
            have := Option.some.inj h
            subst this
            simp at ht

/-- Witness for C9: two identical singleton keyword sets have similarity 1. -/
theorem jaccard_similarity_props_witness :
    calculateSimilarity ["abc"] ["abc"] = 1 :=
  jaccard_similarity_props.1 ["abc"] ["abc"] (by decide) (by decide) rfl

unseal Rat.mul Rat.inv Rat.add Rat.sub Rat.ofScientific in
/-- C5 counterexample: `recategorizeTransaction` (the single-transaction
path) has no "differs from the current category" guard.  With a stored
exact pattern of confidence 0.9 the suggestion "Food" resolves to category
"c1", which the transaction already has — yet the update is applied
(`llmCategorized := true`, stored confidence, applied-flag `true`),
contradicting the claim that for both operations a suggestion is applied
only if it differs from the current category. -/
theorem recategorize_one_counterexample :
    recategorizeOne
        [⟨"p1", "u", "acme pay", none, "c1", (9 : ℚ)/10, true⟩]
        (fun _ => "Food")
        [⟨"c1", "Food", some "u", false⟩] .failure
        ⟨"t1", "u", "acme pay", none, 5, some "c1", false, none⟩
      = (⟨"t1", "u", "acme pay", none, 5, some "c1", true,
          some ((9 : ℚ)/10)⟩, true)
    ∧ (⟨"t1", "u", "acme pay", none, 5, some "c1", false, none⟩ :
        Transaction).categoryId = some "c1" := by
  decide

/-- C5 amended: in `recategorizeAllTransactions` a suggestion is applied only
if the resolved category exists, differs from the current one, and the
confidence exceeds 0.7; in `recategorizeTransaction` it is applied whenever
the resolved category exists and the confidence exceeds 0.7, even when it
equals the current category.  Whenever either applies, the transaction gets
`llmCategorized = true` and `llmConfidence` equal to the suggestion's
confidence; both per-transaction steps are exactly these policies applied to
the classifier's suggestion. -/
theorem recategorize_apply_policy :
    (∀ (categories : List Category) (txn : Transaction)
        (s : CategorySuggestion) (t' : Transaction),
        applySuggestionAll categories txn s = (t', true) →
        ∃ c, categories.find? (fun c => c.name == s.category) = some c
          ∧ txn.categoryId ≠ some c.id
          ∧ (7 : ℚ)/10 < s.confidence
          ∧ t' = { txn with categoryId := some c.id,
                            llmCategorized := true,
                            llmConfidence := some s.confidence })
    ∧ (∀ (categories : List Category) (txn : Transaction)
        (s : CategorySuggestion) (c : Category),
        categories.find? (fun c => c.name == s.category) = some c →
        (7 : ℚ)/10 < s.confidence →
        applySuggestionOne categories txn s
          = ({ txn with categoryId := some c.id,
                        llmCategorized := true,
                        llmConfidence := some s.confidence }, true))
    ∧ (∀ (categories : List Category) (txn : Transaction)
        (s : CategorySuggestion) (t' : Transaction),
        applySuggestionOne categories txn s = (t', true) →
        ∃ c, categories.find? (fun c => c.name == s.category) = some c
          ∧ (7 : ℚ)/10 < s.confidence
          ∧ t' = { txn with categoryId := some c.id,
                            llmCategorized := true,
                            llmConfidence := some s.confidence })
    ∧ (∀ (store : List CategoryPattern) (catName : String → String)
        (categories : List Category) (llm : LlmResponse)
        (txn : Transaction),
        recategorizeAllStep store catName categories llm txn
          = applySuggestionAll categories txn
              (categorizeTransaction store catName txn.description
                txn.merchant (jsAbs txn.amount)
                (categories.map (fun c => c.name)) (some txn.userId) llm)
        ∧ recategorizeOne store catName categories llm txn
          = applySuggestionOne categories txn
              (categorizeTransaction store catName txn.description
                txn.merchant (jsAbs txn.amount)
                (categories.map (fun c => c.name)) (some txn.userId)
                llm)) := by
  refine ⟨?_, ?_, ?_, fun _ _ _ _ _ => ⟨rfl, rfl⟩⟩
  · intro categories txn s t' h
    cases hfind : categories.find? (fun c => c.name == s.category) with
    | none =>
      simp [applySuggestionAll, hfind] at h
    | some c =>
      simp only [applySuggestionAll, hfind] at h
      by_cases hcond : txn.categoryId ≠ some c.id
          ∧ (7 : ℚ)/10 < s.confidence
      · rw [if_pos hcond] at h
        exact ⟨c, rfl, hcond.1, hcond.2, (congrArg Prod.fst h).symm⟩
      · rw [if_neg hcond] at h
        simp at h
  · intro categories txn s c hfind hconf
    simp only [applySuggestionOne, hfind]
    rw [if_pos hconf]
  · intro categories txn s t' h
    cases hfind : categories.find? (fun c => c.name == s.category) with
    | none =>
      simp [applySuggestionOne, hfind] at h
    | some c =>
      simp only [applySuggestionOne, hfind] at h
      by_cases hconf : (7 : ℚ)/10 < s.confidence
      · rw [if_pos hconf] at h
        exact ⟨c, rfl, hconf, (congrArg Prod.fst h).symm⟩
      · rw [if_neg hconf] at h
        simp at h

unseal Rat.mul Rat.inv Rat.add Rat.sub Rat.ofScientific in
/-- Witness for the amended C5: a 0.9-confidence suggestion applied by the
single-transaction policy. -/
theorem recategorize_apply_policy_witness :
    applySuggestionOne [⟨"c1", "Food", some "u", false⟩]
        ⟨"t1", "u", "acme pay", none, 5, some "c1", false, none⟩
        ⟨"Food", (9 : ℚ)/10, ""⟩
      = (⟨"t1", "u", "acme pay", none, 5, some "c1", true,
          some ((9 : ℚ)/10)⟩, true) :=
  recategorize_apply_policy.2.1 [⟨"c1", "Food", some "u", false⟩]
    ⟨"t1", "u", "acme pay", none, 5, some "c1", false, none⟩
    ⟨"Food", (9 : ℚ)/10, ""⟩ ⟨"c1", "Food", some "u", false⟩
    (by decide) (by norm_num)

/-- C6: evaluation of `parseDate` at the claim's own example.  "19 Oct 2015"
and the two-digit "16/01/24" parse as specified, but "15/01/2023" — a
DD/MM/YYYY string with a four-digit year — is captured by the DD/MM/YY
branch, whose regex has no end anchor: it matches the prefix "15/01/20" and
century-infers year 2020 instead of 2023 (the generic DD/MM/YYYY branch that
follows is unreachable for slash-separated dates).  A string matching no
format yields null. -/
theorem parseDate_truncates_four_digit_year :
    parseDate "15/01/2023" = some ⟨2020, 0, 15⟩
    ∧ parseDate "19 Oct 2015" = some ⟨2015, 9, 19⟩
    ∧ parseDate "16/01/24" = some ⟨2024, 0, 16⟩
    ∧ parseDate "garbage" = none := by
  decide

unseal Rat.mul Rat.inv Rat.add Rat.sub Rat.ofScientific in
/-- C7 counterexample: when the pattern-store write fails (its error is
swallowed inside `recordUserCorrection`), the endpoint still answers 200
with the transaction visibly updated and no learning record — not "both or
visibly neither". -/
theorem updateCategory_not_atomic :
    updateCategoryRoute
        ⟨[⟨"t1", "u", "Acme", none, 5, none, true, some ((1 : ℚ)/2)⟩],
         [⟨"c1", "Food", some "u", false⟩], []⟩
        "u" "t1" (some "c1") false "p9"
      = (200,
          ⟨[⟨"t1", "u", "Acme", none, 5, some "c1", false, none⟩],
           [⟨"c1", "Food", some "u", false⟩], []⟩) := by
  decide

/-- C7 amended: the endpoint rejects (400, no effect) a category neither
owned by the user nor default; on success it sets the transaction's
category, clears `llmCategorized`/`llmConfidence`, and then attempts a
confidence-1.0 user-correction record for the transaction's key — but the
two writes are sequential, not atomic: with a failing pattern-store write
the response is still 200 with only the transaction updated. -/
theorem updateCategory_route_behaviour (st : RouteState)
    (uid txnId cid nid : String) (txn : Transaction)
    (hcid : cid ≠ "")
    (htxn : st.transactions.find?
        (fun t => t.id == txnId && t.userId == uid) = some txn) :
    (st.categories.find?
        (fun c => c.id == cid && (c.userId == some uid || c.isDefault))
          = none →
      ∀ pwk : Bool,
        updateCategoryRoute st uid txnId (some cid) pwk nid = (400, st))
    ∧ (∀ cat : Category,
        st.categories.find?
            (fun c => c.id == cid && (c.userId == some uid || c.isDefault))
          = some cat →
        updateCategoryRoute st uid txnId (some cid) true nid
          = (200,
              ⟨updateFirstBy (fun t => t.id == txnId)
                  (fun t => { t with categoryId := some cid,
                                     llmCategorized := false,
                                     llmConfidence := none })
                  st.transactions,
               st.categories,
               recordUserCorrection st.patterns uid txn.description
                 txn.merchant cid 1 nid⟩)
        ∧ updateCategoryRoute st uid txnId (some cid) false nid
          = (200,
              ⟨updateFirstBy (fun t => t.id == txnId)
                  (fun t => { t with categoryId := some cid,
                                     llmCategorized := false,
                                     llmConfidence := none })
                  st.transactions,
               st.categories, st.patterns⟩))
    ∧ (st.transactions.find? (fun t => t.id == txnId) = some txn →
        (updateFirstBy (fun t => t.id == txnId)
            (fun t => { t with categoryId := some cid,
                               llmCategorized := false,
                               llmConfidence := none })
            st.transactions).find? (fun t => t.id == txnId)
          = some { txn with categoryId := some cid,
                            llmCategorized := false,
                            llmConfidence := none }) := by
  have hnm : normMerchant (some cid) = some cid := by
    simp [normMerchant, hcid]
  refine ⟨?_, ?_, ?_⟩
  · intro hcat pwk
    simp [updateCategoryRoute, hnm, htxn, hcat]
  · intro cat hcat
    constructor <;> simp [updateCategoryRoute, hnm, htxn, hcat]
  · intro h2
    apply find?_updateFirstBy _ _ _ _ h2
    have hid := List.find?_some h2
    simpa using hid

unseal Rat.mul Rat.inv Rat.add Rat.sub Rat.ofScientific in
/-- Witness for the amended C7: both writes land when the pattern store
write succeeds. -/
theorem updateCategory_route_behaviour_witness :
    updateCategoryRoute
        ⟨[⟨"t1", "u", "Acme", none, 5, none, true, some ((1 : ℚ)/2)⟩],
         [⟨"c1", "Food", some "u", false⟩], []⟩
        "u" "t1" (some "c1") true "p9"
      = (200,
          ⟨[⟨"t1", "u", "Acme", none, 5, some "c1", false, none⟩],
           [⟨"c1", "Food", some "u", false⟩],
           [⟨"p9", "u", "Acme", none, "c1", 1, true⟩]⟩) :=
  ((updateCategory_route_behaviour
      ⟨[⟨"t1", "u", "Acme", none, 5, none, true, some ((1 : ℚ)/2)⟩],
       [⟨"c1", "Food", some "u", false⟩], []⟩
      "u" "t1" "c1" "p9"
      ⟨"t1", "u", "Acme", none, 5, none, true, some ((1 : ℚ)/2)⟩
      (by decide) (by decide)).2.1
    ⟨"c1", "Food", some "u", false⟩ (by decide)).1


unseal Rat.mul Rat.inv Rat.add Rat.sub Rat.ofScientific in
/-- C8: `handleAssetTransaction` behaviour.  A sale with no matching asset
changes nothing (sales never create); a purchase with no match appends a
fresh asset valued at the absolute amount with quantity 1, active; a
purchase with a match adds the absolute amount and increments the purchase
counter; a sale with a match floors the value at zero and deactivates the
asset exactly when the new value is zero.  The final conjunct is spec
scenario C: purchase 10000 creates value 10000/quantity 1, a 4000 sale
leaves 6000 active, a further 6000 sale leaves 0 inactive. -/
theorem asset_handler_behaviour :
    (∀ (assets : List Asset) (uid cname : String) (info : AssetInfo)
        (desc : String) (merch : Option String) (amt : ℚ) (nid : String),
        (assetCategoryMapping.find? (fun e => e.1 == cname)).map
            (fun e => e.2) = some info →
        info.isSale = true →
        assets.find?
            (assetKeyPred uid (derivedAssetName desc merch) info) = none →
        handleAssetTransaction assets uid (some cname) desc merch amt nid
          = assets)
    ∧ (∀ (assets : List Asset) (uid cname : String) (info : AssetInfo)
        (desc : String) (merch : Option String) (amt : ℚ) (nid : String),
        (assetCategoryMapping.find? (fun e => e.1 == cname)).map
            (fun e => e.2) = some info →
        info.isSale = false →
        assets.find?
            (assetKeyPred uid (derivedAssetName desc merch) info) = none →
        handleAssetTransaction assets uid (some cname) desc merch amt nid
          = assets
            ++ [⟨nid, uid, derivedAssetName desc merch, info.category,
                 info.subCategory, jsAbs amt, jsAbs amt, some 1,
                 "Auto-created from transaction: " ++ desc, true⟩])
    ∧ (∀ (assets : List Asset) (uid cname : String) (info : AssetInfo)
        (desc : String) (merch : Option String) (amt : ℚ) (nid : String)
        (a : Asset),
        (assetCategoryMapping.find? (fun e => e.1 == cname)).map
            (fun e => e.2) = some info →
        info.isSale = false →
        assets.find?
            (assetKeyPred uid (derivedAssetName desc merch) info)
          = some a →
        handleAssetTransaction assets uid (some cname) desc merch amt nid
          = updateFirstBy (fun b => b.id == a.id)
              (fun b => { b with
                currentValue := a.currentValue + jsAbs amt,
                quantity := some ((a.quantity.getD 0) + 1) }) assets)
    ∧ (∀ (assets : List Asset) (uid cname : String) (info : AssetInfo)
        (desc : String) (merch : Option String) (amt : ℚ) (nid : String)
        (a : Asset),
        (assetCategoryMapping.find? (fun e => e.1 == cname)).map
            (fun e => e.2) = some info →
        info.isSale = true →
        assets.find?
            (assetKeyPred uid (derivedAssetName desc merch) info)
          = some a →
        handleAssetTransaction assets uid (some cname) desc merch amt nid
          = updateFirstBy (fun b => b.id == a.id)
              (fun b => { b with
                currentValue := jsMax 0 (a.currentValue - jsAbs amt),
                isActive :=
                  decide (0 < jsMax 0 (a.currentValue - jsAbs amt)) }) assets
        ∧ (jsMax 0 (a.currentValue - jsAbs amt) = 0
            ↔ a.currentValue ≤ jsAbs amt)
        ∧ (decide (0 < jsMax 0 (a.currentValue - jsAbs amt)) = false
            ↔ jsMax 0 (a.currentValue - jsAbs amt) = 0))
    ∧ (handleAssetTransaction [] "u" (some "Stock Purchase")
          "Stock Purchase ZER" (some "Zerodha") 10000 "x1"
        = [⟨"x1", "u", "Zerodha", "Stocks", some "Individual Stocks",
            10000, 10000, some 1,
            "Auto-created from transaction: Stock Purchase ZER", true⟩]
      ∧ handleAssetTransaction
          [⟨"x1", "u", "Zerodha", "Stocks", some "Individual Stocks",
            10000, 10000, some 1,
            "Auto-created from transaction: Stock Purchase ZER", true⟩]
          "u" (some "Stock Sale") "Stock Sale ZER" (some "Zerodha") 4000
          "x2"
        = [⟨"x1", "u", "Zerodha", "Stocks", some "Individual Stocks",
            6000, 10000, some 1,
            "Auto-created from transaction: Stock Purchase ZER", true⟩]
      ∧ handleAssetTransaction
          [⟨"x1", "u", "Zerodha", "Stocks", some "Individual Stocks",
            6000, 10000, some 1,
            "Auto-created from transaction: Stock Purchase ZER", true⟩]
          "u" (some "Stock Sale") "Stock Sale ZER" (some "Zerodha") 6000
          "x3"
        = [⟨"x1", "u", "Zerodha", "Stocks", some "Individual Stocks",
            0, 10000, some 1,
            "Auto-created from transaction: Stock Purchase ZER",
            false⟩]) := by
  refine ⟨?_, ?_, ?_, ?_, ?_⟩
  · intro assets uid cname info desc merch amt nid hmap hsale hfind
    simp [handleAssetTransaction, hmap, hfind, hsale]
  · intro assets uid cname info desc merch amt nid hmap hsale hfind
    simp [handleAssetTransaction, hmap, hfind, hsale]
  · intro assets uid cname info desc merch amt nid a hmap hsale hfind
    simp [handleAssetTransaction, hmap, hfind, hsale]
  · intro assets uid cname info desc merch amt nid a hmap hsale hfind
    refine ⟨?_, ?_, ?_⟩
    · simp [handleAssetTransaction, hmap, hfind, hsale]
    · unfold jsMax
      by_cases hp : (0 : ℚ) < a.currentValue - jsAbs amt
      · rw [if_pos hp]
        constructor
        · intro h
          linarith
        · intro h
          linarith
      · rw [if_neg hp]
        have hle : a.currentValue ≤ jsAbs amt := by
          push_neg at hp
          linarith
        simp [hle]
    · rw [decide_eq_false_iff_not]
      have h0 : (0 : ℚ) ≤ jsMax 0 (a.currentValue - jsAbs amt) := by
        unfold jsMax
        split <;> linarith
      constructor
      · intro h
        exact le_antisymm (le_of_not_lt h) h0
      · intro h
        rw [h]
        simp
  · exact ⟨by decide, by decide, by decide⟩

/-- Witness for C8: a sale against an empty asset store changes nothing. -/
theorem asset_handler_behaviour_witness :
    handleAssetTransaction [] "u" (some "Stock Sale") "Stock Sale ZER"
        (some "Zerodha") 4000 "x9" = [] :=
  asset_handler_behaviour.1 [] "u" "Stock Sale"
    ⟨"Stocks", some "Individual Stocks", true⟩ "Stock Sale ZER"
    (some "Zerodha") 4000 "x9" (by decide) rfl rfl

theorem jsMax_eq_max (a b : ℚ) : jsMax a b = max a b := by
  unfold jsMax
  by_cases h : a < b
  · rw [if_pos h, max_eq_right (le_of_lt h)]
  · rw [if_neg h, max_eq_left (le_of_not_lt h)]

theorem jsMin_eq_min (a b : ℚ) : jsMin a b = min a b := by
  unfold jsMin
  by_cases h : b < a
  · rw [if_pos h, min_eq_right (le_of_lt h)]
  · rw [if_neg h, min_eq_left (le_of_not_lt h)]

unseal Rat.mul Rat.inv Rat.add Rat.sub Rat.ofScientific in
/-- C10 counterexample: a successfully parsed LLM response *can* yield a
confidence of 0, and the confidence does not always lie in [0,1].  A
self-reported confidence of -1 is truthy, survives the `|| 0.5` default,
and `Math.max(0, Math.min(1, -1))` clamps it to exactly 0; the truthy
non-numeric string "high" coerces to NaN, which both `Math.min` and
`Math.max` propagate; and the truthy string "0" coerces to the number 0. -/
theorem parse_confidence_zero_counterexample :
    parseCategorizationResponse (.parsed "X" (some (-1)) none) ["A"]
      = ⟨"A", 0, ""⟩
    ∧ parsedConfidence (.num (-1)) = .val 0
    ∧ parsedConfidence (.str "high" .nan) = .nan
    ∧ parsedConfidence (.str "0" (.val 0)) = .val 0 := by
  refine ⟨by decide, by decide, rfl, by decide⟩

unseal Rat.mul Rat.inv Rat.add Rat.sub Rat.ofScientific in
/-- C10 amended: the parsed-path confidence
`Math.max(0, Math.min(1, parsed.confidence || 0.5))` over general JSON
confidence values.  A falsy self-report (absent, null, false, the empty
string, or exactly 0 — so 0 is treated like an absent confidence, as
claimed) becomes the 0.5 default.  A numeric self-report other than 0 is
clamped into [0,1], with strictly negative values clamped to exactly 0.
But the result does not always lie in [0,1]: a truthy self-report whose
numeric coercion is NaN (e.g. the string "high") yields NaN, and a truthy
self-report coercing to 0 (e.g. the string "0") yields 0 — so a
successfully parsed response can yield 0, or even NaN.  The last conjunct
bridges to `parseCategorizationResponse`: on absent-or-numeric confidence
fields the pipeline computes exactly this model's value. -/
theorem parse_confidence_clamped :
    (∀ conf : JsonConf, jsonConfTruthy conf = false →
        parsedConfidence conf = .val ((1 : ℚ)/2))
    ∧ parsedConfidence (.num 0) = .val ((1 : ℚ)/2)
    ∧ (∀ q : ℚ, q ≠ 0 →
        parsedConfidence (.num q) = .val (jsMax 0 (jsMin 1 q))
        ∧ 0 ≤ jsMax 0 (jsMin 1 q)
        ∧ jsMax 0 (jsMin 1 q) ≤ 1
        ∧ (q < 0 → jsMax 0 (jsMin 1 q) = 0))
    ∧ (∀ conf : JsonConf, jsonConfTruthy conf = true →
        jsonConfToNumber conf = .nan → parsedConfidence conf = .nan)
    ∧ (∀ conf : JsonConf, jsonConfTruthy conf = true →
        jsonConfToNumber conf = .val 0 → parsedConfidence conf = .val 0)
    ∧ (∀ (cat : String) (reas : Option String) (cats : List String)
        (q : ℚ),
        JsNum.val ((parseCategorizationResponse (.parsed cat (some q) reas)
            cats).confidence) = parsedConfidence (.num q)
        ∧ JsNum.val ((parseCategorizationResponse (.parsed cat none reas)
            cats).confidence) = parsedConfidence .undef) := by
  have hhalf : jsMax 0 (jsMin 1 ((1 : ℚ)/2)) = (1 : ℚ)/2 := by decide
  refine ⟨?_, ?_, ?_, ?_, ?_, ?_⟩
  · intro conf h
    have hc : parsedConfidence conf
        = .val (jsMax 0 (jsMin 1 ((1 : ℚ)/2))) := by
      simp [parsedConfidence, h, clampConfidence]
    rw [hc, hhalf]
  · decide
  · intro q hq
    have ht : jsonConfTruthy (.num q) = true := by
      simp [jsonConfTruthy, hq]
    refine ⟨?_, ?_, ?_, ?_⟩
    · simp [parsedConfidence, ht, jsonConfToNumber, clampConfidence]
    · rw [jsMax_eq_max]
      exact le_max_left _ _
    · rw [jsMax_eq_max, jsMin_eq_min]
      exact max_le (by norm_num) (min_le_left _ _)
    · intro hneg
      rw [jsMax_eq_max, jsMin_eq_min,
        min_eq_right (le_of_lt (hneg.trans zero_lt_one)),
        max_eq_left (le_of_lt hneg)]
  · intro conf ht hn
    simp [parsedConfidence, ht, hn, clampConfidence]
  · intro conf ht hn
    have hzero : jsMax 0 (jsMin 1 (0 : ℚ)) = 0 := by decide
    simp [parsedConfidence, ht, hn, clampConfidence, hzero]
  · intro cat reas cats q
    constructor
    · by_cases hq : q = 0
      · subst hq
        simp [parseCategorizationResponse, jsConfidenceOr,
          parsedConfidence, jsonConfTruthy, clampConfidence,
          jsMax_eq_max, jsMin_eq_min]
      · simp [parseCategorizationResponse, jsConfidenceOr, hq,
          parsedConfidence, jsonConfTruthy, jsonConfToNumber,
          clampConfidence, jsMax_eq_max, jsMin_eq_min]
    · simp [parseCategorizationResponse, jsConfidenceOr,
        parsedConfidence, jsonConfTruthy, clampConfidence,
        jsMax_eq_max, jsMin_eq_min]

/-- Witness for the amended C10: the truthy non-numeric self-report "high"
yields NaN. -/
theorem parse_confidence_clamped_witness :
    parsedConfidence (.str "high" .nan) = .nan :=
  parse_confidence_clamped.2.2.2.1 (.str "high" .nan) (by decide) rfl
